import Mathlib

/-!
Shallow embedding of the edit-session reconciliation engine from
`src/vs/workbench/contrib/editSessions/browser/editSessions.contribution.ts`.

External collaborators (file service, remote session store, identity provider,
configuration, dialogs, hashing and base64 utilities) are modelled as
environment parameters; the control flow of `resumeEditSession`,
`generateChanges`, `willChangeLocalContents`, `storeEditSession` and
`getChangedResources` is translated statement by statement from the source.
-/

namespace EditSessions

/-- A URI value as handled by the engine.  `objId` models JavaScript object
identity (two distinct URI objects may render to the same string), `str` the
result of `uri.toString()`. -/
structure Uri where
  objId : Nat
  str : String
deriving DecidableEq, Repr

/-- Wire-level change type tag.  The TypeScript enum serializes to a number and
a Session read from the store may carry any value, which is why the conflict
detector has a fail-fast default branch. -/
abbrev ChangeType := Nat

/-- Models `ChangeType.Addition` from the common edit-sessions module. -/
def ChangeType.Addition : ChangeType := 1

/-- Models `ChangeType.Deletion` from the common edit-sessions module. -/
def ChangeType.Deletion : ChangeType := 2

/-- File-type tag; only file changes are supported. -/
inductive FileType
  | File
deriving DecidableEq, Repr

/-- A persisted change of an edit session. -/
structure Change where
  type : ChangeType
  fileType : FileType
  relativeFilePath : String
  contents : Option String
deriving DecidableEq, Repr

/-- A folder group of an edit session. -/
structure Folder where
  name : String
  canonicalIdentity : Option String
  workingChanges : List Change
deriving DecidableEq, Repr

/-- A versioned edit-session snapshot. -/
structure EditSession where
  version : Nat
  folders : List Folder
deriving DecidableEq, Repr

/-- A change resolved against a concrete local URI during resume
(`{ uri, type, contents }` in `generateChanges`). -/
structure ResolvedChange where
  uri : String
  type : ChangeType
  contents : Option String
deriving DecidableEq, Repr

/-- A locally open workspace folder as seen through the workspace context
service. -/
structure WorkspaceFolder where
  name : String
  uri : String
deriving DecidableEq, Repr

/-- Outcome of `provideEditSessionIdentityMatch` of the identity provider. -/
inductive EditSessionIdentityMatch
  | Complete
  | Partial
  | None
deriving DecidableEq, Repr

/-- An SCM repository: its provider root URI and its resource groups, each
group listing the source URIs of its resource states. -/
structure Repository where
  rootUri : Option Uri
  groups : List (List Uri)
deriving DecidableEq, Repr

/-- State of the file service: an association of URI strings to file
contents. -/
structure FsState where
  files : List (String × String)
deriving DecidableEq, Repr

/-- Models `fileService.exists(uri)`. -/
def FsState.existsFile (fs : FsState) (uri : String) : Bool :=
  (fs.files.lookup uri).isSome

/-- Models `fileService.readFile(uri)`: throws when the file does not exist. -/
def FsState.readFile (fs : FsState) (uri : String) : Except String String :=
  match fs.files.lookup uri with
  | some contents => .ok contents
  | none => .error ("ENOENT")

/-- Models `fileService.writeFile(uri, contents)`. -/
def FsState.writeFile (fs : FsState) (uri contents : String) : FsState :=
  ⟨(uri, contents) :: fs.files.filter (fun kv => kv.1 != uri)⟩

/-- Models `fileService.del(uri)`. -/
def FsState.delFile (fs : FsState) (uri : String) : FsState :=
  ⟨fs.files.filter (fun kv => kv.1 != uri)⟩

/-- Insertion into the `Set<URI>` accumulator of `getChangedResources`: a
JavaScript `Set` of objects deduplicates by object reference (`objId`), not by
URI value. -/
def addResource (resources : List Uri) (u : Uri) : List Uri :=
  if resources.any (fun v => v.objId == u.objId) then resources else resources ++ [u]

/-- Models `getChangedResources(repository)`: folds every resource of every resource
group of the repository into one `Set<URI>`. -/
def getChangedResources (repository : Repository) : List Uri :=
  repository.groups.foldl (fun resources resourceGroup => resourceGroup.foldl addResource resources) []

/-- Environment of a resume run: the external collaborators consulted by
`resumeEditSession`, `generateChanges` and `willChangeLocalContents`. -/
structure ResumeEnv where
  /-- Models `contextService.getWorkbenchState() === WorkbenchState.EMPTY`. -/
  workbenchEmpty : Bool
  /-- result of `editSessionsStorageService.initialize(false, true)`. -/
  silentInitOk : Bool
  /-- Models `editSessionsStorageService.read(ref)`: the edit session and its ref. -/
  read : Option String → Option (EditSession × String)
  /-- Models `EditSessionSchemaVersion` of the running implementation. -/
  schemaVersion : Nat
  /-- Models `contextService.getWorkspace().folders`. -/
  workspaceFolders : List WorkspaceFolder
  /-- Models `editSessionIdentityService.getEditSessionIdentifier(folder, token)`. -/
  getEditSessionIdentifier : WorkspaceFolder → Option String
  /-- Models `editSessionIdentityService.provideEditSessionIdentityMatch(...)`. -/
  provideIdentityMatch : WorkspaceFolder → String → String → Option EditSessionIdentityMatch
  /-- configuration value of the partial-matches flag
  `workbench.experimental.editSessions.partialMatches.enabled`. -/
  configPartialMatchesEnabled : Bool
  /-- Models `scmService.repositories`. -/
  repositories : List Repository
  /-- Models `contextService.getWorkspaceFolder(uri)`, keyed by URI string. -/
  getWorkspaceFolder : String → Option WorkspaceFolder
  /-- Models `joinPath(folderRoot.uri, relativeFilePath)` over URI strings. -/
  joinPath : String → String → String
  /-- Models `sha1Hex(contents)`; argument may be `undefined` in the source. -/
  sha1Hex : Option String → String
  /-- Models `encodeBase64(buffer)` over file contents. -/
  encodeBase64 : String → String
  /-- Models `decodeEditSessionFileContent(version, contents)`. -/
  decodeFileContent : Nat → String → String
  /-- index chosen in the overwrite-confirmation dialog; `0` is Cancel. -/
  dialogChoice : Nat
  /-- file-service state at the start of the run. -/
  fs0 : FsState
  /-- whether `fileService.writeFile` succeeds at a URI (injects I/O failure). -/
  writeOk : String → Bool
  /-- whether `fileService.del` succeeds at a URI (injects I/O failure). -/
  delOk : String → Bool

/-- Models `willChangeLocalContents(localChanges, uriWithIncomingChanges, incomingChange)`:
the conflict check run for each incoming change during resume. -/
def willChangeLocalContents (env : ResumeEnv) (localChanges : List String)
    (uriWithIncomingChanges : String) (incomingChange : Change) : Except String Bool :=
  if !(localChanges.contains uriWithIncomingChanges) then
    .ok false
  else if incomingChange.type = ChangeType.Addition then
    match env.fs0.readFile uriWithIncomingChanges with
    | .error e => .error e
    | .ok fileContents =>
      let originalContents := env.sha1Hex incomingChange.contents
      let incomingContents := env.sha1Hex (some (env.encodeBase64 fileContents))
      .ok (originalContents != incomingContents)
  else if incomingChange.type = ChangeType.Deletion then
    .ok (env.fs0.existsFile uriWithIncomingChanges)
  else
    .error ("Unhandled change type.")

/-- The message of the non-blocking partial-match suggestion surfaced through
the notification service in `generateChanges`. -/
def partialMatchMessage : String :=
  "You have a pending edit session for this workspace. Would you like to resume it?"

/-- JavaScript truthiness of `folder.canonicalIdentity` as tested by
`if (folder.canonicalIdentity)`: a string is truthy iff non-empty. -/
def truthyString : Option String → Bool
  | none => false
  | some s => s != ""

/-- The identity-based scan over the locally open workspace folders (the loop
body of `generateChanges` for a folder with a truthy `canonicalIdentity`).
Returns the resolved folder root, if any, together with the list of
partial-match suggestions surfaced along the way. -/
def scanFoldersForIdentity (env : ResumeEnv) (canonicalIdentity : String) (force : Bool) :
    List WorkspaceFolder → Option WorkspaceFolder × List String
  | [] => (none, [])
  | f :: rest =>
    let identity := env.getEditSessionIdentifier f
    if identity = some canonicalIdentity then
      (some f, [])
    else
      match identity with
      | some identityValue =>
        match env.provideIdentityMatch f identityValue canonicalIdentity with
        | some .Complete => (some f, [])
        | some .Partial =>
          if env.configPartialMatchesEnabled then
            if !force then
              let (folderRoot, suggestions) := scanFoldersForIdentity env canonicalIdentity force rest
              (folderRoot, partialMatchMessage :: suggestions)
            else
              (some f, [])
          else
            scanFoldersForIdentity env canonicalIdentity force rest
        | _ => scanFoldersForIdentity env canonicalIdentity force rest
      | none => scanFoldersForIdentity env canonicalIdentity force rest

/-- Resolution of a remote folder against the local workspace folders: the
identity scan when `canonicalIdentity` is truthy, otherwise an exact-name
lookup (`workspaceFolders.find((f) => f.name === folder.name)`). -/
def resolveFolderRoot (env : ResumeEnv) (force : Bool) (folder : Folder) :
    Option WorkspaceFolder × List String :=
  if truthyString folder.canonicalIdentity then
    scanFoldersForIdentity env (folder.canonicalIdentity.getD ("")) force env.workspaceFolders
  else
    (env.workspaceFolders.find? (fun f => f.name == folder.name), [])

/-- The local changed-resource set built in `generateChanges`: the stringified
changed resources of every repository whose root maps to a workspace folder
named like the remote folder. -/
def localChangesForFolder (env : ResumeEnv) (folder : Folder) : List String :=
  env.repositories.foldl
    (fun localChanges repository =>
      match repository.rootUri with
      | some rootUri =>
        if (env.getWorkspaceFolder rootUri.str).map (fun f => f.name) = some folder.name then
          localChanges ++ (getChangedResources repository).map (fun u => u.str)
        else
          localChanges
      | none => localChanges)
    []

/-- The record `{ uri, type, contents }` pushed for a working change in
`generateChanges`, with `uri = joinPath(folderRoot.uri, change.relativeFilePath)`. -/
def resolveChange (env : ResumeEnv) (folderRootUri : String) (change : Change) :
    ResolvedChange :=
  ⟨env.joinPath folderRootUri change.relativeFilePath, change.type, change.contents⟩

/-- The per-change loop of `generateChanges`: resolves each working change to a
URI, records it, and additionally records it among the conflicting changes when
`willChangeLocalContents` reports a conflict. -/
def processWorkingChanges (env : ResumeEnv) (localChanges : List String) (folderRootUri : String) :
    List Change → Except String (List ResolvedChange × List ResolvedChange)
  | [] => .ok ([], [])
  | change :: rest =>
    match willChangeLocalContents env localChanges
        (env.joinPath folderRootUri change.relativeFilePath) change with
    | .error e => .error e
    | .ok conflict =>
      match processWorkingChanges env localChanges folderRootUri rest with
      | .error e => .error e
      | .ok (changes, conflictingChanges) =>
        .ok (resolveChange env folderRootUri change :: changes,
             if conflict then resolveChange env folderRootUri change :: conflictingChanges
             else conflictingChanges)

/-- The per-folder loop of `generateChanges`.  A folder with no matching local
root makes the whole operation return empty change lists (`.ok none` here),
discarding everything accumulated so far. -/
def processFolders (env : ResumeEnv) (force : Bool) :
    List Folder → Except String (Option (List ResolvedChange × List ResolvedChange))
  | [] => .ok (some ([], []))
  | folder :: rest =>
    match (resolveFolderRoot env force folder).1 with
    | none => .ok none
    | some folderRoot =>
      match processWorkingChanges env (localChangesForFolder env folder) folderRoot.uri
          folder.workingChanges with
      | .error e => .error e
      | .ok (changes, conflictingChanges) =>
        match processFolders env force rest with
        | .error e => .error e
        | .ok none => .ok none
        | .ok (some (restChanges, restConflicting)) =>
          .ok (some (changes ++ restChanges, conflictingChanges ++ restConflicting))

/-- Models `generateChanges(editSession, ref, force)`: the full resolved change list
and its conflicting subset. -/
def generateChanges (env : ResumeEnv) (force : Bool) (editSession : EditSession) :
    Except String (List ResolvedChange × List ResolvedChange) :=
  match processFolders env force editSession.folders with
  | .error e => .error e
  | .ok none => .ok ([], [])
  | .ok (some result) => .ok result

/-- Result of the apply loop of `resumeEditSession`: the file-service state it
left behind, the writes and deletions performed (in order), and whether every
change was applied without an I/O failure. -/
structure ApplyResult where
  fs : FsState
  fileWrites : List (String × String)
  fileDeletes : List String
  success : Bool
deriving DecidableEq, Repr

/-- The apply loop of `resumeEditSession`: writes Additions, deletes Deletions
that exist, silently skips other tags, and stops at the first I/O failure,
keeping the effects applied so far (apply is not transactional). -/
def applyChanges (env : ResumeEnv) (version : Nat) (fs : FsState) :
    List ResolvedChange → ApplyResult
  | [] => ⟨fs, [], [], true⟩
  | change :: rest =>
    if change.type = ChangeType.Addition then
      if env.writeOk change.uri then
        let contents := env.decodeFileContent version (change.contents.getD (""))
        let result := applyChanges env version (fs.writeFile change.uri contents) rest
        { result with fileWrites := (change.uri, contents) :: result.fileWrites }
      else
        ⟨fs, [], [], false⟩
    else if change.type = ChangeType.Deletion then
      if fs.existsFile change.uri then
        if env.delOk change.uri then
          let result := applyChanges env version (fs.delFile change.uri) rest
          { result with fileDeletes := change.uri :: result.fileDeletes }
        else
          ⟨fs, [], [], false⟩
      else
        applyChanges env version fs rest
    else
      applyChanges env version fs rest

/-- Terminal outcome of a resume run. -/
inductive ResumeOutcome
  | emptyWorkspace
  | silentSignInFailed
  | noEditSession
  | versionRejected
  | noChanges
  | userCancelled
  | applied
  | resumeFailed
deriving DecidableEq, Repr

/-- Observable result of a resume run: outcome, final file-service state, the
writes and deletions performed, whether the overwrite-confirmation dialog was
shown, and whether the remote snapshot was deleted. -/
structure ResumeResult where
  outcome : ResumeOutcome
  fs : FsState
  fileWrites : List (String × String)
  fileDeletes : List String
  askedForConfirmation : Bool
  remoteDeleted : Bool
deriving DecidableEq, Repr

/-- A terminal result reached before any mutation. -/
def noEffects (env : ResumeEnv) (outcome : ResumeOutcome) : ResumeResult :=
  ⟨outcome, env.fs0, [], [], false, false⟩

/-- The tail of `resumeEditSession` from the apply loop on: apply all changes,
then delete the remote session only when every change applied successfully. -/
def finishApply (env : ResumeEnv) (version : Nat) (changes : List ResolvedChange)
    (asked : Bool) : ResumeResult :=
  let result := applyChanges env version env.fs0 changes
  if result.success then
    ⟨.applied, result.fs, result.fileWrites, result.fileDeletes, asked, true⟩
  else
    ⟨.resumeFailed, result.fs, result.fileWrites, result.fileDeletes, asked, false⟩

/-- Models `resumeEditSession(ref, silent, force)`. -/
def resumeEditSession (env : ResumeEnv) (ref : Option String) (silent force : Bool) :
    ResumeResult :=
  if env.workbenchEmpty then noEffects env .emptyWorkspace
  else if silent && !env.silentInitOk then noEffects env .silentSignInFailed
  else
    match env.read ref with
    | none => noEffects env .noEditSession
    | some (editSession, _newRef) =>
      if editSession.version > env.schemaVersion then
        noEffects env .versionRejected
      else
        match generateChanges env force editSession with
        | .error _ => noEffects env .resumeFailed
        | .ok (changes, conflictingChanges) =>
          if changes.isEmpty then noEffects env .noChanges
          else if conflictingChanges.isEmpty then
            finishApply env editSession.version changes false
          else if env.dialogChoice = 0 then
            { noEffects env .userCancelled with askedForConfirmation := true }
          else
            finishApply env editSession.version changes true

/-- Environment of a store run: the external collaborators consulted by
`storeEditSession`. -/
structure StoreEnv where
  /-- Models `scmService.repositories`. -/
  repositories : List Repository
  /-- Models `contextService.getWorkspaceFolder(uri)`, keyed by URI string. -/
  getWorkspaceFolder : String → Option WorkspaceFolder
  /-- Models `editSessionIdentityService.getEditSessionIdentifier(folder, token)`. -/
  getEditSessionIdentifier : WorkspaceFolder → Option String
  /-- Models `relativePath(workspaceFolder.uri, uri)` over URI strings. -/
  relativePath : String → String → Option String
  /-- Models `uri.path` of a URI string, the fallback when `relativePath` is
  undefined. -/
  uriPath : String → String
  /-- Models `fileService.stat(uri).isFile`; `none` models a thrown stat error, which
  the source swallows with an empty catch. -/
  statIsFile : String → Option Bool
  /-- Models `fileService.exists(uri)`. -/
  existsFile : String → Bool
  /-- Models `fileService.readFile(uri)` (only called after a successful exists
  check). -/
  readFile : String → String
  /-- Models `encodeBase64(buffer)` over file contents. -/
  encodeBase64 : String → String

/-- The folder-name accumulator update `name = name ?? workspaceFolder.name`
of the store loop. -/
def nameOrFolderName (name : Option String) (workspaceFolder : WorkspaceFolder) :
    Option String :=
  if name.isSome then name else some workspaceFolder.name

/-- The Change recorded by `storeEditSession` for one examined resource: an
Addition with base64 contents if the file exists on disk, else a Deletion. -/
def storedChange (env : StoreEnv) (workspaceFolder : WorkspaceFolder) (uri : Uri) : Change :=
  if env.existsFile uri.str then
    { type := ChangeType.Addition, fileType := FileType.File,
      relativeFilePath := (env.relativePath workspaceFolder.uri uri.str).getD (env.uriPath uri.str),
      contents := some (env.encodeBase64 (env.readFile uri.str)) }
  else
    { type := ChangeType.Deletion, fileType := FileType.File,
      relativeFilePath := (env.relativePath workspaceFolder.uri uri.str).getD (env.uriPath uri.str),
      contents := none }

/-- The per-URI loop of `storeEditSession` over one repository's tracked URIs:
returns the working changes recorded, the folder name accumulator
(`name = name ?? workspaceFolder.name`), and whether any edit was examined
(the `hasEdits` flag contribution). -/
def buildWorkingChanges (env : StoreEnv) :
    List Uri → Option String → List Change × Option String × Bool
  | [], name => ([], name, false)
  | uri :: rest, name =>
    match env.getWorkspaceFolder uri.str with
    | none => buildWorkingChanges env rest name
    | some workspaceFolder =>
      if env.statIsFile uri.str = some false then
        buildWorkingChanges env rest (nameOrFolderName name workspaceFolder)
      else
        (storedChange env workspaceFolder uri ::
           (buildWorkingChanges env rest (nameOrFolderName name workspaceFolder)).1,
         (buildWorkingChanges env rest (nameOrFolderName name workspaceFolder)).2.1,
         true)

/-- The workspace folder of a repository's provider root URI. -/
def repoWorkspaceFolder (env : StoreEnv) (repository : Repository) : Option WorkspaceFolder :=
  repository.rootUri.bind (fun rootUri => env.getWorkspaceFolder rootUri.str)

/-- The per-repository body of `storeEditSession`: dedupe the tracked URIs via
`getChangedResources`, build the working changes, and record the folder name
and canonical identity of the repository's workspace folder. -/
def processRepository (env : StoreEnv) (repository : Repository) : Folder × Bool :=
  (⟨(buildWorkingChanges env (getChangedResources repository)
       ((repoWorkspaceFolder env repository).map (fun f => f.name))).2.1.getD (""),
    (repoWorkspaceFolder env repository).bind env.getEditSessionIdentifier,
    (buildWorkingChanges env (getChangedResources repository)
       ((repoWorkspaceFolder env repository).map (fun f => f.name))).1⟩,
   (buildWorkingChanges env (getChangedResources repository)
       ((repoWorkspaceFolder env repository).map (fun f => f.name))).2.2)

/-- Models `storeEditSession`: assembles the versioned Session from all repositories,
or yields nothing when no edits were found. -/
def storeEditSession (env : StoreEnv) : Option EditSession :=
  if (env.repositories.map (processRepository env)).any (fun r => r.2) then
    some ⟨2, (env.repositories.map (processRepository env)).map (fun r => r.1)⟩
  else
    none

/-- A sample local workspace folder used by the concrete evaluations below. -/
def wfW : WorkspaceFolder := ⟨"w", "file:///w"⟩

/-- A session with a single Addition of `a.txt` in folder `w`, matched by
name. -/
def sessionA : EditSession :=
  ⟨2, [⟨"w", none, [⟨ChangeType.Addition, FileType.File, "a.txt", some ("QUJD")⟩]⟩]⟩

/-- A repository rooted at the sample workspace folder whose only resource
group reports `a.txt` as changed. -/
def repoW : Repository :=
  ⟨some ⟨0, "file:///w"⟩, [[⟨1, "file:///w/a.txt"⟩]]⟩

/-- Baseline concrete resume environment: supported schema version 2, one
local workspace folder, no repositories, empty disk, all I/O succeeding. -/
def envBase : ResumeEnv :=
  { workbenchEmpty := false
    silentInitOk := true
    read := fun _ => some (sessionA, "ref1")
    schemaVersion := 2
    workspaceFolders := [wfW]
    getEditSessionIdentifier := fun _ => none
    provideIdentityMatch := fun _ _ _ => none
    configPartialMatchesEnabled := false
    repositories := []
    getWorkspaceFolder := fun _ => some wfW
    joinPath := fun base rel => base ++ "/" ++ rel
    sha1Hex := fun c => c.getD ("")
    encodeBase64 := fun s => s
    decodeFileContent := fun _ s => s
    dialogChoice := 0
    fs0 := ⟨[]⟩
    writeOk := fun _ => true
    delOk := fun _ => true }

/-- Environment delivering a session whose version exceeds the supported
schema version. -/
def envVer : ResumeEnv :=
  { envBase with read := fun _ => some (⟨3, sessionA.folders⟩, "ref1") }

/-- Environment in which writing the incoming Addition fails. -/
def envFailWrite : ResumeEnv :=
  { envBase with writeOk := fun _ => false }

/-- Environment in which `a.txt` is locally changed with different on-disk
contents, so the incoming Addition conflicts. -/
def envConflict : ResumeEnv :=
  { envBase with
      repositories := [repoW]
      fs0 := ⟨[("file:///w/a.txt", "X")]⟩ }

/-- If the `silent` flag implies that silent sign-in succeeded, the early
silent-abort guard of `resumeEditSession` is disabled. -/
theorem silent_guard_false (silent ok : Bool) (h : silent = true → ok = true) :
    (silent && !ok) = false := by
  cases silent <;> simp_all

/-- C1: a Session whose version is strictly greater than the supported schema
version makes `resumeEditSession` stop with the version rejection: no file is
written or deleted, the file state is untouched, and the remote snapshot is
not deleted. -/
theorem C1_version_rejected (env : ResumeEnv) (ref : Option String) (silent force : Bool)
    (editSession : EditSession) (newRef : String)
    (hempty : env.workbenchEmpty = false)
    (hsilent : silent = true → env.silentInitOk = true)
    (hread : env.read ref = some (editSession, newRef))
    (hversion : editSession.version > env.schemaVersion) :
    resumeEditSession env ref silent force =
      { outcome := ResumeOutcome.versionRejected, fs := env.fs0, fileWrites := [],
        fileDeletes := [], askedForConfirmation := false, remoteDeleted := false } := by
  simp [resumeEditSession, hempty, silent_guard_false silent _ hsilent, hread, hversion, noEffects]

/-- Witness for C1: the version-3 session of `envVer` is rejected against the
supported version 2 with zero side effects. -/
theorem C1_witness :
    resumeEditSession envVer none false false =
      { outcome := ResumeOutcome.versionRejected, fs := envVer.fs0, fileWrites := [],
        fileDeletes := [], askedForConfirmation := false, remoteDeleted := false } :=
  C1_version_rejected envVer none false false ⟨3, sessionA.folders⟩ "ref1" rfl
    (fun h => by cases h) rfl (by decide)

/-- C2: the conflict check returns false whenever the target URI is not in the
local changed-resource set; when it is in the set, an Addition conflicts iff
the hash of the incoming contents differs from the hash of the (base64-encoded)
on-disk contents, a Deletion conflicts iff the file currently exists locally,
and any other change type fails fast with an error. -/
theorem C2_conflict_check (env : ResumeEnv) (localChanges : List String)
    (uri : String) (incomingChange : Change) :
    (localChanges.contains uri = false →
      willChangeLocalContents env localChanges uri incomingChange = .ok false) ∧
    (localChanges.contains uri = true →
      (incomingChange.type = ChangeType.Addition →
        ∀ fileContents, env.fs0.readFile uri = .ok fileContents →
          willChangeLocalContents env localChanges uri incomingChange =
            .ok (env.sha1Hex incomingChange.contents !=
                 env.sha1Hex (some (env.encodeBase64 fileContents)))) ∧
      (incomingChange.type = ChangeType.Deletion →
        willChangeLocalContents env localChanges uri incomingChange =
          .ok (env.fs0.existsFile uri)) ∧
      (incomingChange.type ≠ ChangeType.Addition →
        incomingChange.type ≠ ChangeType.Deletion →
        willChangeLocalContents env localChanges uri incomingChange =
          .error ("Unhandled change type."))) := by
  refine ⟨fun hmem => ?_, fun hmem => ⟨fun hadd fileContents hread => ?_, fun hdel => ?_, fun hna hnd => ?_⟩⟩
  · have hmem' : uri ∉ localChanges := by simpa using hmem
    simp [willChangeLocalContents, hmem']
  · have hmem' : uri ∈ localChanges := by simpa using hmem
    simp [willChangeLocalContents, hmem', hadd, hread]
  · have hmem' : uri ∈ localChanges := by simpa using hmem
    have hne : incomingChange.type ≠ ChangeType.Addition := by
      rw [hdel]; decide
    simp [willChangeLocalContents, hmem', hne, hdel]
    intro hcontra
    exact absurd hcontra (by decide)
  · have hmem' : uri ∈ localChanges := by simpa using hmem
    simp [willChangeLocalContents, hmem', hna, hnd]

/-- Witness for C2: in `envConflict`, the incoming Addition of `a.txt` targets
a locally changed file whose on-disk contents hash differently, so the
conflict check answers true. -/
theorem C2_witness :
    willChangeLocalContents envConflict ["file:///w/a.txt"] "file:///w/a.txt"
      ⟨ChangeType.Addition, FileType.File, "a.txt", some ("QUJD")⟩ = .ok true := by
  have h := ((C2_conflict_check envConflict ["file:///w/a.txt"] "file:///w/a.txt"
      ⟨ChangeType.Addition, FileType.File, "a.txt", some ("QUJD")⟩).2 rfl).1 rfl ("X") rfl
  rw [h]
  rfl

/-- Characterization of `finishApply`: the remote snapshot is deleted exactly
when the apply loop succeeded, and the reported effects are those of the apply
loop. -/
theorem finishApply_spec (env : ResumeEnv) (version : Nat) (changes : List ResolvedChange)
    (asked : Bool) :
    ((finishApply env version changes asked).remoteDeleted = true →
      (applyChanges env version env.fs0 changes).success = true ∧
      (finishApply env version changes asked).fileWrites =
        (applyChanges env version env.fs0 changes).fileWrites ∧
      (finishApply env version changes asked).fileDeletes =
        (applyChanges env version env.fs0 changes).fileDeletes) ∧
    ((applyChanges env version env.fs0 changes).success = false →
      (finishApply env version changes asked).remoteDeleted = false) := by
  unfold finishApply
  cases hs : (applyChanges env version env.fs0 changes).success <;> simp [hs]

/-- Every resume run ends in one of three shapes: an effect-free abort, the
effect-free user cancellation, or the apply tail `finishApply` run on the
change list produced by `generateChanges`. -/
theorem resume_shape (env : ResumeEnv) (ref : Option String) (silent force : Bool) :
    (∃ o, resumeEditSession env ref silent force = noEffects env o) ∨
    (resumeEditSession env ref silent force =
      { noEffects env .userCancelled with askedForConfirmation := true }) ∨
    (∃ editSession newRef changes conflictingChanges asked,
      env.read ref = some (editSession, newRef) ∧
      generateChanges env force editSession = .ok (changes, conflictingChanges) ∧
      resumeEditSession env ref silent force = finishApply env editSession.version changes asked) := by
  unfold resumeEditSession
  split
  · exact .inl ⟨_, rfl⟩
  split
  · exact .inl ⟨_, rfl⟩
  split
  · exact .inl ⟨_, rfl⟩
  next editSession newRef heq =>
    split
    · exact .inl ⟨_, rfl⟩
    split
    · exact .inl ⟨_, rfl⟩
    next changes conflictingChanges hgen =>
      split
      · exact .inl ⟨_, rfl⟩
      split
      · exact .inr (.inr ⟨_, _, _, _, false, heq, hgen, rfl⟩)
      split
      · exact .inr (.inl rfl)
      · exact .inr (.inr ⟨_, _, _, _, true, heq, hgen, rfl⟩)

/-- C3: the remote snapshot is deleted only when every resolved change was
applied successfully (and then the reported effects are exactly those of the
full apply loop); if applying any change fails, the remote snapshot is left
intact. -/
theorem C3_remote_deleted_only_after_full_apply (env : ResumeEnv) (ref : Option String)
    (silent force : Bool) (editSession : EditSession) (newRef : String)
    (changes conflictingChanges : List ResolvedChange)
    (hread : env.read ref = some (editSession, newRef))
    (hgen : generateChanges env force editSession = .ok (changes, conflictingChanges)) :
    ((resumeEditSession env ref silent force).remoteDeleted = true →
      (applyChanges env editSession.version env.fs0 changes).success = true ∧
      (resumeEditSession env ref silent force).fileWrites =
        (applyChanges env editSession.version env.fs0 changes).fileWrites ∧
      (resumeEditSession env ref silent force).fileDeletes =
        (applyChanges env editSession.version env.fs0 changes).fileDeletes) ∧
    ((applyChanges env editSession.version env.fs0 changes).success = false →
      (resumeEditSession env ref silent force).remoteDeleted = false) := by
  rcases resume_shape env ref silent force with ⟨o, h⟩ | h | ⟨es, nr, cs, ccs, asked, hr, hg, h⟩
  · rw [h]
    simp [noEffects]
  · rw [h]
    simp [noEffects]
  · rw [hread] at hr
    simp only [Option.some.injEq, Prod.mk.injEq] at hr
    obtain ⟨rfl, rfl⟩ := hr
    rw [hgen] at hg
    simp only [Except.ok.injEq, Prod.mk.injEq] at hg
    obtain ⟨rfl, rfl⟩ := hg
    rw [h]
    exact finishApply_spec env editSession.version changes asked

/-- Witness for C3: in `envFailWrite` the write of `a.txt` fails, the apply
loop does not succeed, and the remote snapshot is not deleted. -/
theorem C3_witness :
    (resumeEditSession envFailWrite none false false).remoteDeleted = false :=
  (C3_remote_deleted_only_after_full_apply envFailWrite none false false sessionA ("ref1")
    [⟨"file:///w/a.txt", ChangeType.Addition, some ("QUJD")⟩] [] rfl rfl).2 rfl

/-- C4: when the conflicting subset is non-empty the confirmation dialog is
shown, and cancelling it aborts the resume with zero side effects: no file is
written or deleted and the remote snapshot is not deleted. -/
theorem C4_cancel_aborts_without_effects (env : ResumeEnv) (ref : Option String)
    (silent force : Bool) (editSession : EditSession) (newRef : String)
    (changes conflictingChanges : List ResolvedChange)
    (hempty : env.workbenchEmpty = false)
    (hsilent : silent = true → env.silentInitOk = true)
    (hread : env.read ref = some (editSession, newRef))
    (hversion : ¬ editSession.version > env.schemaVersion)
    (hgen : generateChanges env force editSession = .ok (changes, conflictingChanges))
    (hchanges : changes ≠ [])
    (hconflicting : conflictingChanges ≠ [])
    (hcancel : env.dialogChoice = 0) :
    resumeEditSession env ref silent force =
      { outcome := ResumeOutcome.userCancelled, fs := env.fs0, fileWrites := [],
        fileDeletes := [], askedForConfirmation := true, remoteDeleted := false } := by
  have hce : changes.isEmpty = false := by
    cases changes with
    | nil => exact absurd rfl hchanges
    | cons c cs => rfl
  have hcce : conflictingChanges.isEmpty = false := by
    cases conflictingChanges with
    | nil => exact absurd rfl hconflicting
    | cons c cs => rfl
  simp [resumeEditSession, hempty, silent_guard_false silent _ hsilent, hread, hversion,
    hgen, hce, hcce, hcancel, noEffects]

/-- Witness for C4: in `envConflict` the single incoming Addition conflicts,
the dialog choice is Cancel, and the resume stops with zero side effects. -/
theorem C4_witness :
    resumeEditSession envConflict none false false =
      { outcome := ResumeOutcome.userCancelled, fs := envConflict.fs0, fileWrites := [],
        fileDeletes := [], askedForConfirmation := true, remoteDeleted := false } :=
  C4_cancel_aborts_without_effects envConflict none false false sessionA ("ref1")
    [⟨"file:///w/a.txt", ChangeType.Addition, some ("QUJD")⟩]
    [⟨"file:///w/a.txt", ChangeType.Addition, some ("QUJD")⟩]
    rfl (fun h => by cases h) rfl (by decide) rfl
    (by decide) (by decide) rfl

/-- A remote folder carrying the empty string as its canonical identity;
`if (folder.canonicalIdentity)` treats it like an absent identity. -/
def folderEmptyId : Folder := ⟨"w", some (""), []⟩

/-- Counterexample for C5: `folderEmptyId` has a present (`some`) canonical
identity, the identity provider yields no identity for the only local folder,
yet the matcher resolves that local folder — by name.  So a present canonical
identity does not always suppress name matching: the source guard
`if (folder.canonicalIdentity)` is a truthiness test, and the empty string
falls through to the name-equality branch. -/
theorem C5_counterexample :
    folderEmptyId.canonicalIdentity.isSome = true ∧
    envBase.workspaceFolders = [wfW] ∧
    envBase.getEditSessionIdentifier wfW = none ∧
    (resolveFolderRoot envBase false folderEmptyId).1 = some wfW ∧
    wfW.name = folderEmptyId.name :=
  ⟨rfl, rfl, rfl, rfl, rfl⟩

/-- C5 (amended): if the canonical identity is absent or the empty string, the
matcher resolves solely by exact name equality; if it is present and
non-empty, the result is the identity scan and is independent of the remote
folder's name, so no name fallback ever happens in that case. -/
theorem C5_identity_over_name (env : ResumeEnv) (force : Bool) (folder : Folder) :
    (truthyString folder.canonicalIdentity = false →
      resolveFolderRoot env force folder =
        (env.workspaceFolders.find? (fun f => f.name == folder.name), [])) ∧
    (truthyString folder.canonicalIdentity = true →
      ∀ n : String,
        resolveFolderRoot env force { folder with name := n } =
          scanFoldersForIdentity env (folder.canonicalIdentity.getD ("")) force
            env.workspaceFolders) := by
  constructor
  · intro h
    simp [resolveFolderRoot, h]
  · intro h n
    simp [resolveFolderRoot, h]

/-- Witness for C5: with an absent identity the sample folder resolves to the
like-named local folder, and with a non-empty identity the resolution equals
the identity scan whatever the remote name is. -/
theorem C5_witness :
    resolveFolderRoot envBase false ⟨"w", none, []⟩ = (some wfW, []) ∧
    resolveFolderRoot envBase false ⟨"x", some ("id1"), []⟩ =
      scanFoldersForIdentity envBase ("id1") false envBase.workspaceFolders := by
  constructor
  · rw [(C5_identity_over_name envBase false ⟨"w", none, []⟩).1 rfl]
    rfl
  · exact (C5_identity_over_name envBase false ⟨"x", some ("id1"), []⟩).2 rfl ("x")

/-- C6: a local folder classified as a Partial identity match is skipped
entirely when the partial-matches configuration flag is off; with the flag on
and `force` set it is accepted and scanning stops; with the flag on and
`force` unset it is not resolved, a non-blocking suggestion is surfaced, and
scanning continues over the remaining local folders. -/
theorem C6_partial_match_policy (env : ResumeEnv) (canonicalIdentity : String) (force : Bool)
    (f : WorkspaceFolder) (rest : List WorkspaceFolder) (identityValue : String)
    (hid : env.getEditSessionIdentifier f = some identityValue)
    (hne : identityValue ≠ canonicalIdentity)
    (hmatch : env.provideIdentityMatch f identityValue canonicalIdentity =
      some EditSessionIdentityMatch.Partial) :
    (env.configPartialMatchesEnabled = false →
      scanFoldersForIdentity env canonicalIdentity force (f :: rest) =
        scanFoldersForIdentity env canonicalIdentity force rest) ∧
    (env.configPartialMatchesEnabled = true → force = true →
      scanFoldersForIdentity env canonicalIdentity force (f :: rest) = (some f, [])) ∧
    (env.configPartialMatchesEnabled = true → force = false →
      (scanFoldersForIdentity env canonicalIdentity force (f :: rest)).1 =
        (scanFoldersForIdentity env canonicalIdentity force rest).1 ∧
      (scanFoldersForIdentity env canonicalIdentity force (f :: rest)).2 =
        partialMatchMessage :: (scanFoldersForIdentity env canonicalIdentity force rest).2) := by
  refine ⟨fun hcfg => ?_, fun hcfg hforce => ?_, fun hcfg hforce => ?_⟩
  · simp [scanFoldersForIdentity, hid, hne, hmatch, hcfg]
  · subst hforce
    simp [scanFoldersForIdentity, hid, hne, hmatch, hcfg]
  · subst hforce
    constructor <;> simp [scanFoldersForIdentity, hid, hne, hmatch, hcfg]

/-- Concrete environment whose identity provider classifies the sample local
folder as a Partial match for identity `cid`, with partial matches enabled. -/
def envPartial : ResumeEnv :=
  { envBase with
      getEditSessionIdentifier := fun _ => some ("localId")
      provideIdentityMatch := fun _ _ _ => some EditSessionIdentityMatch.Partial
      configPartialMatchesEnabled := true }

/-- Witness for C6: in `envPartial` with `force` set, the partially matching
folder is accepted as the match. -/
theorem C6_witness :
    scanFoldersForIdentity envPartial ("cid") true (wfW :: []) = (some wfW, []) :=
  (C6_partial_match_policy envPartial ("cid") true wfW [] "localId" rfl
    (by decide) rfl).2.1 rfl rfl

/-- If some folder of the list has no matching local root, the per-folder loop
returns the skip signal (empty change lists) whenever it returns at all. -/
theorem processFolders_unmatched (env : ResumeEnv) (force : Bool) (f : Folder)
    (hun : (resolveFolderRoot env force f).1 = none) :
    ∀ folders : List Folder, f ∈ folders →
      ∀ r, processFolders env force folders = .ok r → r = none := by
  intro folders
  induction folders with
  | nil => intro hf; cases hf
  | cons g rest ih =>
    intro hf r hr
    unfold processFolders at hr
    split at hr
    · simpa using hr.symm
    · next root hres =>
      have hfr : f ∈ rest := by
        cases hf with
        | head =>
          rw [hun] at hres
          cases hres
        | tail _ h => exact h
      split at hr
      · simp at hr
      · split at hr
        · simp at hr
        · simpa using hr.symm
        · next restChanges restConflicting hpf =>
          have hcontra := ih hfr (some (restChanges, restConflicting)) hpf
          simp at hcontra

/-- C7: when some declared folder of the Session matches no locally open
workspace folder, `generateChanges` succeeds with both lists empty, and the
resume run ends in the effect-free no-changes skip rather than a failure. -/
theorem C7_unmatched_folder_skips (env : ResumeEnv) (ref : Option String)
    (silent force : Bool) (editSession : EditSession) (newRef : String)
    (changes conflictingChanges : List ResolvedChange)
    (hempty : env.workbenchEmpty = false)
    (hsilent : silent = true → env.silentInitOk = true)
    (hread : env.read ref = some (editSession, newRef))
    (hversion : ¬ editSession.version > env.schemaVersion)
    (hgen : generateChanges env force editSession = .ok (changes, conflictingChanges))
    (f : Folder) (hf : f ∈ editSession.folders)
    (hun : (resolveFolderRoot env force f).1 = none) :
    changes = [] ∧ conflictingChanges = [] ∧
    resumeEditSession env ref silent force = noEffects env ResumeOutcome.noChanges := by
  have hgen' : generateChanges env force editSession = .ok ([], []) := by
    unfold generateChanges
    cases hpf : processFolders env force editSession.folders with
    | error e =>
      rw [generateChanges, hpf] at hgen
      cases hgen
    | ok r =>
      have hrn : r = none := processFolders_unmatched env force f hun editSession.folders hf r hpf
      subst hrn
      rfl
  rw [hgen'] at hgen
  simp only [Except.ok.injEq, Prod.mk.injEq] at hgen
  obtain ⟨rfl, rfl⟩ := hgen
  refine ⟨rfl, rfl, ?_⟩
  simp [resumeEditSession, hempty, silent_guard_false silent _ hsilent, hread, hversion, hgen']

/-- A session declaring a folder named `z` that is not open locally. -/
def sessionNoMatch : EditSession := ⟨2, [⟨"z", none, []⟩]⟩

/-- Environment delivering `sessionNoMatch`. -/
def envNoMatch : ResumeEnv :=
  { envBase with read := fun _ => some (sessionNoMatch, "ref1") }

/-- Witness for C7: resuming `sessionNoMatch` yields empty change lists and the
effect-free no-changes skip. -/
theorem C7_witness :
    resumeEditSession envNoMatch none false false = noEffects envNoMatch ResumeOutcome.noChanges :=
  (C7_unmatched_folder_skips envNoMatch none false false sessionNoMatch ("ref1") [] []
    rfl (fun h => by cases h) rfl (by decide) rfl ⟨"z", none, []⟩ (by decide) rfl).2.2

/-- The conflicting list built by the per-change loop is a sublist of the full
resolved change list. -/
theorem processWorkingChanges_sublist (env : ResumeEnv) (localChanges : List String)
    (folderRootUri : String) :
    ∀ (workingChanges : List Change) (changes conflictingChanges : List ResolvedChange),
      processWorkingChanges env localChanges folderRootUri workingChanges =
        .ok (changes, conflictingChanges) →
      List.Sublist conflictingChanges changes := by
  intro workingChanges
  induction workingChanges with
  | nil =>
    intro changes conflictingChanges h
    simp only [processWorkingChanges, Except.ok.injEq, Prod.mk.injEq] at h
    obtain ⟨rfl, rfl⟩ := h
    exact List.Sublist.slnil
  | cons change rest ih =>
    intro changes conflictingChanges h
    unfold processWorkingChanges at h
    split at h
    · cases h
    · next conflict hconf =>
      split at h
      · cases h
      · next cs ccs hrec =>
        simp only [Except.ok.injEq, Prod.mk.injEq] at h
        obtain ⟨rfl, rfl⟩ := h
        cases conflict with
        | true =>
          simpa using List.Sublist.cons₂ (resolveChange env folderRootUri change)
            (ih cs ccs hrec)
        | false =>
          simpa using List.Sublist.cons (resolveChange env folderRootUri change)
            (ih cs ccs hrec)

/-- The conflicting list built by the per-folder loop is a sublist of the full
resolved change list. -/
theorem processFolders_sublist (env : ResumeEnv) (force : Bool) :
    ∀ (folders : List Folder) (changes conflictingChanges : List ResolvedChange),
      processFolders env force folders = .ok (some (changes, conflictingChanges)) →
      List.Sublist conflictingChanges changes := by
  intro folders
  induction folders with
  | nil =>
    intro changes conflictingChanges h
    simp only [processFolders, Except.ok.injEq, Option.some.injEq, Prod.mk.injEq] at h
    obtain ⟨rfl, rfl⟩ := h
    exact List.Sublist.slnil
  | cons folder rest ih =>
    intro changes conflictingChanges h
    unfold processFolders at h
    split at h
    · cases h
    · next root hres =>
      split at h
      · cases h
      · next cs ccs hpw =>
        split at h
        · cases h
        · cases h
        · next restChanges restConflicting hpf =>
          simp only [Except.ok.injEq, Option.some.injEq, Prod.mk.injEq] at h
          obtain ⟨rfl, rfl⟩ := h
          exact List.Sublist.append
            (processWorkingChanges_sublist env (localChangesForFolder env folder) root.uri
              folder.workingChanges cs ccs hpw)
            (ih restChanges restConflicting hpf)

/-- C10: whenever `generateChanges` succeeds, the conflicting change list is a
sublist of the full resolved change list, so every conflicting change also
appears among the changes that a confirmed resume would apply. -/
theorem C10_conflicting_sublist_of_changes (env : ResumeEnv) (force : Bool)
    (editSession : EditSession) (changes conflictingChanges : List ResolvedChange)
    (hgen : generateChanges env force editSession = .ok (changes, conflictingChanges)) :
    List.Sublist conflictingChanges changes ∧
    ∀ c ∈ conflictingChanges, c ∈ changes := by
  have hsub : List.Sublist conflictingChanges changes := by
    unfold generateChanges at hgen
    split at hgen
    · cases hgen
    · simp only [Except.ok.injEq, Prod.mk.injEq] at hgen
      obtain ⟨rfl, rfl⟩ := hgen
      exact List.Sublist.slnil
    · next result hpf =>
      obtain ⟨cs, ccs⟩ := result
      simp only [Except.ok.injEq, Prod.mk.injEq] at hgen
      obtain ⟨rfl, rfl⟩ := hgen
      exact processFolders_sublist env force editSession.folders cs ccs hpf
  exact ⟨hsub, fun c hc => hsub.subset hc⟩

/-- Witness for C10: in `envConflict` the single conflicting change is the
single resolved change, a sublist as claimed. -/
theorem C10_witness :
    List.Sublist
      [(⟨"file:///w/a.txt", ChangeType.Addition, some ("QUJD")⟩ : ResolvedChange)]
      [(⟨"file:///w/a.txt", ChangeType.Addition, some ("QUJD")⟩ : ResolvedChange)] :=
  (C10_conflicting_sublist_of_changes envConflict false sessionA
    [⟨"file:///w/a.txt", ChangeType.Addition, some ("QUJD")⟩]
    [⟨"file:///w/a.txt", ChangeType.Addition, some ("QUJD")⟩] rfl).1

/-- Every change recorded by the per-URI store loop has contents exactly when
it is an Addition, and a Deletion always has absent contents. -/
theorem buildWorkingChanges_contents (env : StoreEnv) :
    ∀ (uris : List Uri) (name : Option String) (c : Change),
      c ∈ (buildWorkingChanges env uris name).1 →
      (c.contents.isSome = true ↔ c.type = ChangeType.Addition) ∧
      (c.type = ChangeType.Deletion → c.contents = none) := by
  intro uris
  induction uris with
  | nil =>
    intro name c hc
    simp [buildWorkingChanges] at hc
  | cons u rest ih =>
    intro name c hc
    unfold buildWorkingChanges at hc
    split at hc
    · exact ih _ c hc
    · next wf hwf =>
      split at hc
      · exact ih _ c hc
      · simp only [List.mem_cons] at hc
        cases hc with
        | inl hceq =>
          subst hceq
          unfold storedChange
          by_cases hex : env.existsFile u.str = true
          · simp [hex, ChangeType.Addition, ChangeType.Deletion]
          · simp only [Bool.not_eq_true] at hex
            simp [hex, ChangeType.Addition, ChangeType.Deletion]
        | inr hcr =>
          exact ih _ c hcr

/-- C9: every change of every folder of a Session produced by
`storeEditSession` has contents present exactly when its type is Addition, and
every Deletion has absent contents. -/
theorem C9_contents_iff_addition (env : StoreEnv) (session : EditSession)
    (hstore : storeEditSession env = some session)
    (folder : Folder) (hf : folder ∈ session.folders)
    (change : Change) (hc : change ∈ folder.workingChanges) :
    (change.contents.isSome = true ↔ change.type = ChangeType.Addition) ∧
    (change.type = ChangeType.Deletion → change.contents = none) := by
  unfold storeEditSession at hstore
  split at hstore
  · simp only [Option.some.injEq] at hstore
    subst hstore
    simp only [List.mem_map] at hf
    obtain ⟨p, ⟨repo, hrepo, rfl⟩, rfl⟩ := hf
    unfold processRepository at hc
    exact buildWorkingChanges_contents env (getChangedResources repo)
      ((repoWorkspaceFolder env repo).map (fun f => f.name)) change hc
  · cases hstore

/-- Store environment with one repository reporting a modified `a.txt` (on
disk) and a deleted `b.txt` (missing from disk). -/
def envStoreMix : StoreEnv :=
  { repositories := [⟨some ⟨0, "file:///w"⟩, [[⟨1, "file:///w/a.txt"⟩], [⟨2, "file:///w/b.txt"⟩]]⟩]
    getWorkspaceFolder := fun _ => some wfW
    getEditSessionIdentifier := fun _ => none
    relativePath := fun _ _ => none
    uriPath := fun u => u
    statIsFile := fun _ => some true
    existsFile := fun s => s == "file:///w/a.txt"
    readFile := fun _ => "hello"
    encodeBase64 := fun s => s }

/-- The session assembled by `storeEditSession` over `envStoreMix`: one
Addition carrying contents and one Deletion carrying none. -/
def sessionMix : EditSession :=
  ⟨2, [⟨"w", none,
    [⟨ChangeType.Addition, FileType.File, "file:///w/a.txt", some ("hello")⟩,
     ⟨ChangeType.Deletion, FileType.File, "file:///w/b.txt", none⟩]⟩]⟩

/-- Witness for C9: the Deletion of `b.txt` stored by `envStoreMix` has absent
contents, and contents presence coincides with the Addition type. -/
theorem C9_witness :
    (⟨ChangeType.Deletion, FileType.File, "file:///w/b.txt", none⟩ : Change).contents = none :=
  (C9_contents_iff_addition envStoreMix sessionMix rfl
    ⟨"w", none,
      [⟨ChangeType.Addition, FileType.File, "file:///w/a.txt", some ("hello")⟩,
       ⟨ChangeType.Deletion, FileType.File, "file:///w/b.txt", none⟩]⟩
    (by decide)
    ⟨ChangeType.Deletion, FileType.File, "file:///w/b.txt", none⟩ (by decide)).2 rfl

/-- A repository in which the same resource URI value `file:///w/a.txt`
appears in two resource groups as two distinct URI objects, as the SCM
providers produce. -/
def repoDup : Repository :=
  ⟨some ⟨0, "file:///w"⟩, [[⟨1, "file:///w/a.txt"⟩], [⟨2, "file:///w/a.txt"⟩]]⟩

/-- Store environment around `repoDup`. -/
def envStoreDup : StoreEnv :=
  { repositories := [repoDup]
    getWorkspaceFolder := fun _ => some wfW
    getEditSessionIdentifier := fun _ => none
    relativePath := fun _ _ => some ("a.txt")
    uriPath := fun u => u
    statIsFile := fun _ => some true
    existsFile := fun _ => true
    readFile := fun _ => "hello"
    encodeBase64 := fun s => s }

/-- C8 (failing evaluation): the `Set<URI>` accumulator of
`getChangedResources` deduplicates by object identity, not by URI value, so a
resource reported by two resource groups as two URI objects with the same
string yields two tracked URIs and contributes two identical Changes to the
folder's workingChanges — against the deduplication the surrounding comment
and the specification call for. -/
theorem C8_duplicate_uri_two_changes :
    getChangedResources repoDup = [⟨1, "file:///w/a.txt"⟩, ⟨2, "file:///w/a.txt"⟩] ∧
    (storeEditSession envStoreDup).map
      (fun s => s.folders.map (fun f => f.workingChanges.length)) = some [2] ∧
    (storeEditSession envStoreDup).map
      (fun s => s.folders.map (fun f => f.workingChanges.map (fun c => c.relativeFilePath))) =
      some [["a.txt", "a.txt"]] :=
  ⟨rfl, rfl, rfl⟩

end EditSessions
